import Mathlib

/-! Orchestrator between a function-calling model and an MCP tool server.

A shallow embedding of `orchestrator.go`.  The Go program talks to two
outside parties: a child process (the MCP server, one spawn per call) and an
HTTPS endpoint (the model).  Both, together with the `encoding/json` codec the
program calls, are gathered in a `World` value; every function of the program
is a pure function of the world and of the history of calls made so far, and
returns its Go result together with the extended history.

Go errors are represented by their message (`err.Error()`), Go pointers that
may be nil by `Option`, slices by lists.
-/

namespace MCPChat

/-! ## Data model -/

/-- A JSON value as `encoding/json` stores it in a Go `interface{}`: `null` is
the nil interface, `num` carries the bit pattern of the `float64`. -/
inductive JSON where
  | null
  | bool (b : Bool)
  | num (bits : Nat)
  | str (s : String)
  | arr (items : List JSON)
  | obj (fields : List (String × JSON))

/-- Go `map[string]interface{}`; `none` is the nil map. -/
abbrev GoMap := Option (List (String × JSON))

/-- Go `FunctionCall`. -/
structure FunctionCall where
  name : String
  args : GoMap

/-- Go `FunctionResponse`. -/
structure FunctionResponse where
  name : String
  response : GoMap

/-- Go `Part`: the zero value has an empty text and two nil pointers. -/
structure Part where
  text : String := ""
  functionCall : Option FunctionCall := none
  functionResponse : Option FunctionResponse := none

/-- Go `Content`. -/
structure Content where
  role : String
  parts : List Part

/-- Go `FunctionDeclaration`. -/
structure FunctionDeclaration where
  name : String
  description : String
  parameters : GoMap

/-- Go `Tool`. -/
structure Tool where
  functionDeclarations : List FunctionDeclaration

/-- Go `GeminiRequest`. -/
structure GeminiRequest where
  contents : List Content
  tools : List Tool

/-- Go `Candidate`. -/
structure Candidate where
  content : Content
  finishReason : String

/-- Go `GeminiResponse`. -/
structure GeminiResponse where
  candidates : List Candidate

/-- Go `MCPCallToolParams`. -/
structure MCPCallToolParams where
  name : String
  arguments : GoMap

/-- The dynamic values the program stores in `MCPRequest.Params`
(an `interface{}`): nil, a `map[string]interface{}`, or an
`MCPCallToolParams` struct. -/
inductive Params where
  | none
  | object (fields : List (String × JSON))
  | callTool (p : MCPCallToolParams)

/-- Go `MCPRequest`. -/
structure MCPRequest where
  jsonrpc : String
  id : Int
  method : String
  params : Params

/-- Go `MCPResponse`; `result` and `error` are `JSON.null` when the member is
absent from the envelope. -/
structure MCPResponse where
  jsonrpc : String
  id : Int
  result : JSON
  error : JSON

/-- Go `MCPTool`. -/
structure MCPTool where
  name : String
  description : String
  inputSchema : GoMap

/-- Go `MCPToolsListResult`. -/
structure MCPToolsListResult where
  tools : List MCPTool

/-- Go `MCPContent`. -/
structure MCPContent where
  type : String
  text : String

/-- Go `MCPCallToolResult`. -/
structure MCPCallToolResult where
  content : List MCPContent

/-- Go `Orchestrator`: the read-only configuration. -/
structure Orchestrator where
  geminiEndpoint : String
  geminiToken : String
  mcpServerPath : String

/-- Go `NewOrchestrator`. -/
def NewOrchestrator (geminiEndpoint geminiToken mcpServerPath : String) : Orchestrator :=
  { geminiEndpoint := geminiEndpoint, geminiToken := geminiToken, mcpServerPath := mcpServerPath }

/-! ## The outside world -/

/-- One call of a collaborator: `serverCall` is an invocation of
`callMCPServer` with the request envelope it builds, `modelCall` an invocation
of `callGemini` with its request. -/
inductive Event where
  | serverCall (request : MCPRequest)
  | modelCall (request : GeminiRequest)

/-- Everything outside `orchestrator.go` that the program calls.  The history
argument is the list of calls made before the present one, so a world may
answer the same request differently at different times. -/
structure World where
  /-- The error, if any, of `json.Marshal(request)` in `callMCPServer`. -/
  marshalMCPRequest : MCPRequest → Option String
  /-- The outcome of `exec.Command(path)` fed the request and run by
  `cmd.Output()`: an error or the bytes of standard output. -/
  output : String → List Event → MCPRequest → Except String String
  /-- The outcome of `json.Unmarshal(output, &mcpResp)`. -/
  unmarshalMCPResponse : String → Except String MCPResponse
  /-- The outcome of `json.Marshal(resp.Result)` followed by `json.Unmarshal`
  into an `MCPToolsListResult`. -/
  toolsListOf : JSON → Except String MCPToolsListResult
  /-- The outcome of `json.Marshal(resp.Result)` followed by `json.Unmarshal`
  into an `MCPCallToolResult`. -/
  callToolResultOf : JSON → Except String MCPCallToolResult
  /-- The error, if any, of `json.Marshal(request)` in `callGemini`. -/
  marshalGeminiRequest : GeminiRequest → Option String
  /-- The error, if any, of `http.NewRequest("POST", endpoint, body)`. -/
  newRequest : String → Option String
  /-- The outcome of `client.Do(req)` with the given endpoint and
  `Authorization` header, then `io.ReadAll(resp.Body)`: an error or the
  response body. -/
  roundTrip : String → String → List Event → GeminiRequest → Except String String
  /-- The outcome of `json.Unmarshal(body, &geminiResp)`. -/
  unmarshalGeminiResponse : String → Except String GeminiResponse

/-! ## The program -/

/-- Go `callGemini`. -/
def callGemini (w : World) (o : Orchestrator) (hist : List Event) (request : GeminiRequest) :
    Except String GeminiResponse × List Event :=
  (match w.marshalGeminiRequest request with
    | some err => .error err
    | none =>
      match w.newRequest o.geminiEndpoint with
      | some err => .error err
      | none =>
        match w.roundTrip o.geminiEndpoint ("Bearer " ++ o.geminiToken) hist request with
        | .error err => .error err
        | .ok body =>
          match w.unmarshalGeminiResponse body with
          | .error err => .error ("failed to parse response: " ++ err ++ ", body: " ++ body)
          | .ok geminiResp => .ok geminiResp,
   hist ++ [Event.modelCall request])

/-- The `request` literal of `callMCPServer`. -/
def envelope (method : String) (params : Params) : MCPRequest :=
  { jsonrpc := "2.0", id := 1, method := method, params := params }

/-- Go `callMCPServer`.  The debug line it prints to standard output is not
modelled. -/
def callMCPServer (w : World) (o : Orchestrator) (hist : List Event) (method : String)
    (params : Params) : Except String MCPResponse × List Event :=
  let request : MCPRequest := envelope method params
  (match w.marshalMCPRequest request with
    | some err => .error err
    | none =>
      match w.output o.mcpServerPath hist request with
      | .error err => .error ("MCP server error: " ++ err)
      | .ok output =>
        if output.length = 0 then .error "MCP server returned empty response"
        else
          match w.unmarshalMCPResponse output with
          | .error err =>
            .error ("failed to parse MCP response: " ++ err ++ ", output: " ++ output)
          | .ok mcpResp => .ok mcpResp,
   hist ++ [Event.serverCall request])

/-- The `initParams` literal of `getAvailableTools`. -/
def initParams : Params :=
  .object [("protocolVersion", .str "2024-11-05"),
           ("capabilities", .obj [("tools", .obj [])])]

/-- Go `getAvailableTools`. -/
def getAvailableTools (w : World) (o : Orchestrator) (hist : List Event) :
    Except String (List FunctionDeclaration) × List Event :=
  match callMCPServer w o hist "initialize" initParams with
  | (.error err, h1) => (.error ("failed to initialize MCP server: " ++ err), h1)
  | (.ok _, h1) =>
    match callMCPServer w o h1 "tools/list" Params.none with
    | (.error err, h2) => (.error err, h2)
    | (.ok resp, h2) =>
      match w.toolsListOf resp.result with
      | .error err => (.error err, h2)
      | .ok toolsList =>
        (.ok (toolsList.tools.foldl
          (fun functions tool =>
            functions ++ [{ name := tool.name, description := tool.description,
                            parameters := tool.inputSchema }]) []), h2)

/-- The tail of `executeTool` once the result is decoded
(the statements under `// Extract text from result`). -/
def extractedText (toolResult : MCPCallToolResult) : String :=
  match toolResult.content with
  | first :: _ =>
    if first.type = "text" then first.text
    else "Tool executed successfully"
  | [] => "Tool executed successfully"

/-- Go `executeTool`. -/
def executeTool (w : World) (o : Orchestrator) (hist : List Event) (functionCall : FunctionCall) :
    Except String String × List Event :=
  let params : MCPCallToolParams := { name := functionCall.name, arguments := functionCall.args }
  match callMCPServer w o hist "tools/call" (.callTool params) with
  | (.error err, h1) => (.error err, h1)
  | (.ok resp, h1) =>
    match w.callToolResultOf resp.result with
    | .error err => (.error err, h1)
    | .ok toolResult => (.ok (extractedText toolResult), h1)

/-- The `request` literal of `ProcessMessage`. -/
def initialRequest (userMessage : String) (tools : List FunctionDeclaration) : GeminiRequest :=
  { contents := [{ role := "user", parts := [{ text := userMessage }] }],
    tools := [{ functionDeclarations := tools }] }

/-- The `followUpRequest` literal of `ProcessMessage`. -/
def followUpRequest (userMessage : String) (tools : List FunctionDeclaration)
    (functionCall : FunctionCall) (toolResult : String) : GeminiRequest :=
  { contents :=
      [{ role := "user", parts := [{ text := userMessage }] },
       { role := "model", parts := [{ functionCall := some functionCall }] },
       { role := "function",
         parts := [{ functionResponse :=
                      some { name := functionCall.name,
                             response := some [("result", .str toolResult)] } }] }],
    tools := [{ functionDeclarations := tools }] }

/-- The tail of `ProcessMessage` after the function-call block
(the statements under `// Direct text response`). -/
def directResponse (candidate : Candidate) : String :=
  match candidate.content.parts with
  | part :: _ => part.text
  | [] => "No response generated"

/-- Go `ProcessMessage`, started with an empty call history. -/
def ProcessMessage (w : World) (o : Orchestrator) (userMessage : String) :
    Except String String × List Event :=
  match getAvailableTools w o [] with
  | (.error err, h1) => (.error ("failed to get tools: " ++ err), h1)
  | (.ok tools, h1) =>
    match callGemini w o h1 (initialRequest userMessage tools) with
    | (.error err, h2) => (.error ("Gemini API error: " ++ err), h2)
    | (.ok resp, h2) =>
      match resp.candidates with
      | [] => (.error "no response from Gemini", h2)
      | candidate :: _ =>
        match candidate.content.parts with
        | [] => (.ok (directResponse candidate), h2)
        | part :: _ =>
          match part.functionCall with
          | none => (.ok (directResponse candidate), h2)
          | some functionCall =>
            match executeTool w o h2 functionCall with
            | (.error err, h3) => (.error ("tool execution error: " ++ err), h3)
            | (.ok toolResult, h3) =>
              match callGemini w o h3 (followUpRequest userMessage tools functionCall toolResult) with
              | (.error err, h4) => (.error ("Gemini follow-up error: " ++ err), h4)
              | (.ok finalResp, h4) =>
                match finalResp.candidates with
                | [] => (.ok (directResponse candidate), h4)
                | final :: _ =>
                  match final.content.parts with
                  | [] => (.ok (directResponse candidate), h4)
                  | finalPart :: _ => (.ok finalPart.text, h4)

/-! ## Observations on a call history -/

/-- The `tools/call` requests of a history, in order. -/
def toolsCalls (trace : List Event) : List MCPRequest :=
  trace.filterMap fun e =>
    match e with
    | .serverCall request => if request.method = "tools/call" then some request else none
    | .modelCall _ => none

/-- The model requests of a history, in order. -/
def modelCalls (trace : List Event) : List GeminiRequest :=
  trace.filterMap fun e =>
    match e with
    | .serverCall _ => none
    | .modelCall request => some request

/-- The text of the first block whose type is `"text"`, as the specification
words the extraction. -/
def firstTextBlock (content : List MCPContent) : Option String :=
  (content.find? fun block => block.type = "text").map fun block => block.text

/-- Every child-process call recorded in the history returned a response. -/
def AllOk (w : World) (o : Orchestrator) (trace : List Event) : Prop :=
  ∀ (hist : List Event) (method : String) (params : Params),
    hist ++ [Event.serverCall (envelope method params)] <+: trace →
    ∃ r, (callMCPServer w o hist method params).1 = .ok r

/-- A child-process call recorded in the history that returned an error is
the last entry of the history. -/
def FailsLast (w : World) (o : Orchestrator) (trace : List Event) : Prop :=
  ∀ (hist : List Event) (method : String) (params : Params),
    hist ++ [Event.serverCall (envelope method params)] <+: trace →
    (∃ e, (callMCPServer w o hist method params).1 = .error e) →
    trace = hist ++ [Event.serverCall (envelope method params)]

/-- The history of a run that ended with success flag `ok`: a failed
child-process call ends the history, and a successful run has none. -/
def Traced (w : World) (o : Orchestrator) (ok : Bool) (trace : List Event) : Prop :=
  FailsLast w o trace ∧ (ok = true → AllOk w o trace)

/-! ## A scripted world

The server and the model are scripts: the server answers each method with a
fixed standard output, the model answers the one-turn conversation with
`body1` and every longer one with `body2`.  The codec is the table of the
texts these scripts emit, each with the value `encoding/json` decodes it to. -/

/-- Server output: an envelope with an empty result object. -/
def outEmptyResult : String :=
  "\x7b\"jsonrpc\":\"2.0\",\"id\":1,\"result\":\x7b\x7d\x7d"

/-- Server output: the catalog with the single tool `hello_world`. -/
def outToolsList : String :=
  "\x7b\"jsonrpc\":\"2.0\",\"id\":1,\"result\":\x7b\"tools\":[\x7b\"name\":\"hello_world\",\"description\":\"Say hello to someone\",\"inputSchema\":\x7b\"type\":\"object\"\x7d\x7d]\x7d\x7d"

/-- Server output: a tool result with one text block. -/
def outText : String :=
  "\x7b\"jsonrpc\":\"2.0\",\"id\":1,\"result\":\x7b\"content\":[\x7b\"type\":\"text\",\"text\":\"Hello, Ann!\"\x7d]\x7d\x7d"

/-- Server output: a tool result with an image block followed by a text block. -/
def outImageThenText : String :=
  "\x7b\"jsonrpc\":\"2.0\",\"id\":1,\"result\":\x7b\"content\":[\x7b\"type\":\"image\"\x7d,\x7b\"type\":\"text\",\"text\":\"Hello, Ann!\"\x7d]\x7d\x7d"

/-- Server output: an envelope whose `error` member is set and whose `result`
member is absent. -/
def outError : String :=
  "\x7b\"jsonrpc\":\"2.0\",\"id\":1,\"error\":\x7b\"message\":\"unknown tool\"\x7d\x7d"

/-- Server output: an envelope whose result is a JSON string. -/
def outStringResult : String :=
  "\x7b\"jsonrpc\":\"2.0\",\"id\":1,\"result\":\"done\"\x7d"

/-- Model body: one candidate whose single part is the text `hi`. -/
def bodyText : String :=
  "\x7b\"candidates\":[\x7b\"content\":\x7b\"role\":\"model\",\"parts\":[\x7b\"text\":\"hi\"\x7d]\x7d,\"finishReason\":\"STOP\"\x7d]\x7d"

/-- Model body: one candidate whose single part calls `hello_world` for Ann. -/
def bodyCall : String :=
  "\x7b\"candidates\":[\x7b\"content\":\x7b\"role\":\"model\",\"parts\":[\x7b\"functionCall\":\x7b\"name\":\"hello_world\",\"args\":\x7b\"name\":\"Ann\"\x7d\x7d\x7d]\x7d,\"finishReason\":\"STOP\"\x7d]\x7d"

/-- Model body: one candidate whose single part is the closing answer. -/
def bodyFinal : String :=
  "\x7b\"candidates\":[\x7b\"content\":\x7b\"role\":\"model\",\"parts\":[\x7b\"text\":\"Ann was greeted.\"\x7d]\x7d,\"finishReason\":\"STOP\"\x7d]\x7d"

/-- Model body: no candidates. -/
def bodyNoCandidates : String :=
  "\x7b\"candidates\":[]\x7d"

/-- Model body: one candidate whose content has no parts. -/
def bodyNoParts : String :=
  "\x7b\"candidates\":[\x7b\"content\":\x7b\"role\":\"model\"\x7d,\"finishReason\":\"STOP\"\x7d]\x7d"

/-- Model body: one candidate whose single part is the empty object. -/
def bodyEmptyPart : String :=
  "\x7b\"candidates\":[\x7b\"content\":\x7b\"role\":\"model\",\"parts\":[\x7b\x7d]\x7d,\"finishReason\":\"STOP\"\x7d]\x7d"

/-- The call the scripted model asks for. -/
def helloCall : FunctionCall :=
  { name := "hello_world", args := some [("name", .str "Ann")] }

/-- The catalog the scripted server lists. -/
def helloTool : MCPTool :=
  { name := "hello_world", description := "Say hello to someone",
    inputSchema := some [("type", .str "object")] }

/-- The declaration built from `helloTool`. -/
def helloDeclaration : FunctionDeclaration :=
  { name := "hello_world", description := "Say hello to someone",
    parameters := some [("type", .str "object")] }

/-- Decoding table for the server outputs above. -/
def scriptedUnmarshalMCPResponse (output : String) : Except String MCPResponse :=
  if output = outEmptyResult then
    .ok { jsonrpc := "2.0", id := 1, result := .obj [], error := .null }
  else if output = outToolsList then
    .ok { jsonrpc := "2.0", id := 1, error := .null,
          result := .obj [("tools", .arr [.obj [("name", .str "hello_world"),
            ("description", .str "Say hello to someone"),
            ("inputSchema", .obj [("type", .str "object")])]])] }
  else if output = outText then
    .ok { jsonrpc := "2.0", id := 1, error := .null,
          result := .obj [("content", .arr [.obj [("type", .str "text"),
            ("text", .str "Hello, Ann!")]])] }
  else if output = outImageThenText then
    .ok { jsonrpc := "2.0", id := 1, error := .null,
          result := .obj [("content", .arr [.obj [("type", .str "image")],
            .obj [("type", .str "text"), ("text", .str "Hello, Ann!")]])] }
  else if output = outError then
    .ok { jsonrpc := "2.0", id := 1, result := .null,
          error := .obj [("message", .str "unknown tool")] }
  else if output = outStringResult then
    .ok { jsonrpc := "2.0", id := 1, result := .str "done", error := .null }
  else .error "invalid character"

/-- Decoding table for the `tools/list` results above. -/
def scriptedToolsListOf : JSON → Except String MCPToolsListResult
  | .null => .ok { tools := [] }
  | .obj [] => .ok { tools := [] }
  | .obj [("tools", .arr [.obj [("name", .str name), ("description", .str description),
      ("inputSchema", .obj schema)]])] =>
    .ok { tools := [{ name := name, description := description, inputSchema := some schema }] }
  | _ => .error "json: cannot unmarshal into Go value of type main.MCPToolsListResult"

/-- Decoding table for the `tools/call` results above. -/
def scriptedCallToolResultOf : JSON → Except String MCPCallToolResult
  | .null => .ok { content := [] }
  | .obj [] => .ok { content := [] }
  | .str _ =>
    .error "json: cannot unmarshal string into Go value of type main.MCPCallToolResult"
  | .obj [("content", .arr [.obj [("type", .str type), ("text", .str text)]])] =>
    .ok { content := [{ type := type, text := text }] }
  | .obj [("content", .arr [.obj [("type", .str type1)],
      .obj [("type", .str type2), ("text", .str text2)]])] =>
    .ok { content := [{ type := type1, text := "" }, { type := type2, text := text2 }] }
  | _ => .error "json: cannot unmarshal into Go value of type main.MCPCallToolResult"

/-- Decoding table for the model bodies above. -/
def scriptedUnmarshalGeminiResponse (body : String) : Except String GeminiResponse :=
  if body = bodyText then
    .ok { candidates := [{ content := { role := "model", parts := [{ text := "hi" }] },
                           finishReason := "STOP" }] }
  else if body = bodyCall then
    .ok { candidates := [{ content := { role := "model",
                                        parts := [{ functionCall := some helloCall }] },
                           finishReason := "STOP" }] }
  else if body = bodyFinal then
    .ok { candidates := [{ content := { role := "model",
                                        parts := [{ text := "Ann was greeted." }] },
                           finishReason := "STOP" }] }
  else if body = bodyNoCandidates then .ok { candidates := [] }
  else if body = bodyNoParts then
    .ok { candidates := [{ content := { role := "model", parts := [] },
                           finishReason := "STOP" }] }
  else if body = bodyEmptyPart then
    .ok { candidates := [{ content := { role := "model", parts := [{}] },
                           finishReason := "STOP" }] }
  else .error "invalid character"

/-- The scripted world: `initOut`, `listOut` and `callOut` are the server's
standard output for the three methods, `body1` and `body2` the model's bodies
for the first request and for the follow-up. -/
def scripted (initOut listOut callOut body1 body2 : String) : World where
  marshalMCPRequest := fun _ => none
  output := fun _ _ request =>
    .ok (if request.method = "initialize" then initOut
         else if request.method = "tools/list" then listOut
         else callOut)
  unmarshalMCPResponse := scriptedUnmarshalMCPResponse
  toolsListOf := scriptedToolsListOf
  callToolResultOf := scriptedCallToolResultOf
  marshalGeminiRequest := fun _ => none
  newRequest := fun _ => none
  roundTrip := fun _ _ _ request =>
    .ok (match request.contents with
         | [_] => body1
         | _ => body2)
  unmarshalGeminiResponse := scriptedUnmarshalGeminiResponse

/-- The configuration of `main` in `chat.go`. -/
def chatOrchestrator : Orchestrator :=
  NewOrchestrator "" "" "./mcp-test-server.exe"

/-- Scenario: the model answers with a text. -/
def textWorld : World :=
  scripted outEmptyResult outToolsList outText bodyText bodyFinal

/-- Scenario: the model calls the tool, the tool answers with one text block. -/
def toolWorld : World :=
  scripted outEmptyResult outToolsList outText bodyCall bodyFinal

/-- Scenario: the tool answers with an image block followed by a text block. -/
def imageThenTextWorld : World :=
  scripted outEmptyResult outToolsList outImageThenText bodyCall bodyFinal

/-- Scenario: the tool answers with a result that has no content. -/
def noContentWorld : World :=
  scripted outEmptyResult outToolsList outEmptyResult bodyCall bodyFinal

/-- Scenario: the tool answers with a result that is a JSON string. -/
def stringResultWorld : World :=
  scripted outEmptyResult outToolsList outStringResult bodyCall bodyFinal

/-- Scenario: the tool answers with a JSON-RPC error envelope. -/
def errorWorld : World :=
  scripted outEmptyResult outToolsList outError bodyCall bodyFinal

/-- Scenario: the tool process prints nothing. -/
def silentToolWorld : World :=
  scripted outEmptyResult outToolsList "" bodyCall bodyFinal

/-- Scenario: the process prints nothing for `initialize`. -/
def silentInitWorld : World :=
  scripted "" outToolsList outText bodyCall bodyFinal

/-- Scenario: the process prints nothing for `tools/list`. -/
def silentListWorld : World :=
  scripted outEmptyResult "" outText bodyCall bodyFinal

/-- Scenario: the model answers with no candidates. -/
def noCandidatesWorld : World :=
  scripted outEmptyResult outToolsList outText bodyNoCandidates bodyFinal

/-- Scenario: the model answers with a candidate that has no parts. -/
def noPartsWorld : World :=
  scripted outEmptyResult outToolsList outText bodyNoParts bodyFinal

/-- Scenario: the model answers with a candidate whose only part is empty. -/
def emptyPartWorld : World :=
  scripted outEmptyResult outToolsList outText bodyEmptyPart bodyFinal

/-- Scenario: the model calls the tool and answers the follow-up with a
candidate that has no parts. -/
def followUpNoPartsWorld : World :=
  scripted outEmptyResult outToolsList outText bodyCall bodyNoParts

/-- The history after the catalog fetch. -/
def catalogHistory : List Event :=
  [Event.serverCall (envelope "initialize" initParams),
   Event.serverCall (envelope "tools/list" Params.none)]

/-- The history after the initial model request for `Hello Ann`. -/
def firstHistory : List Event :=
  catalogHistory ++ [Event.modelCall (initialRequest "Hello Ann" [helloDeclaration])]

/-- The history after the `tools/call` for `helloCall`. -/
def callHistory : List Event :=
  firstHistory ++ [Event.serverCall (envelope "tools/call"
    (.callTool { name := "hello_world", arguments := some [("name", .str "Ann")] }))]

/-- The candidate decoded from `bodyCall`. -/
def callCandidate : Candidate :=
  { content := { role := "model", parts := [{ functionCall := some helloCall }] },
    finishReason := "STOP" }

set_option maxRecDepth 1000000

/-! ## Auxiliary facts -/

theorem callMCPServer_eq (w : World) (o : Orchestrator) (hist : List Event) (method : String)
    (params : Params) :
    callMCPServer w o hist method params =
      ((callMCPServer w o hist method params).1,
        hist ++ [Event.serverCall (envelope method params)]) := rfl

theorem callMCPServer_trace {w : World} {o : Orchestrator} {hist h1 : List Event}
    {method : String} {params : Params} {res : Except String MCPResponse}
    (h : callMCPServer w o hist method params = (res, h1)) :
    h1 = hist ++ [Event.serverCall (envelope method params)] := by
  rw [callMCPServer_eq] at h
  exact (Prod.mk.inj h).2.symm

theorem callGemini_trace {w : World} {o : Orchestrator} {hist h1 : List Event}
    {request : GeminiRequest} {res : Except String GeminiResponse}
    (h : callGemini w o hist request = (res, h1)) :
    h1 = hist ++ [Event.modelCall request] :=
  (Prod.mk.inj h).2.symm

theorem foldl_append_eq_map {α β : Type} (f : α → β) (l : List α) (init : List β) :
    l.foldl (fun acc x => acc ++ [f x]) init = init ++ l.map f := by
  induction l generalizing init with
  | nil => simp
  | cons x xs ih => simp [ih]

theorem getAvailableTools_trace {w : World} {o : Orchestrator} {hist h1 : List Event}
    {tools : List FunctionDeclaration}
    (h : getAvailableTools w o hist = (.ok tools, h1)) :
    h1 = hist ++ [Event.serverCall (envelope "initialize" initParams),
                  Event.serverCall (envelope "tools/list" Params.none)] := by
  unfold getAvailableTools at h
  rw [callMCPServer_eq] at h
  cases h1c : (callMCPServer w o hist "initialize" initParams).1 with
  | error e => simp [h1c] at h
  | ok r1 =>
    simp only [h1c] at h
    rw [callMCPServer_eq] at h
    cases h2c : (callMCPServer w o (hist ++ [Event.serverCall (envelope "initialize" initParams)])
        "tools/list" Params.none).1 with
    | error e => simp [h2c] at h
    | ok r2 =>
      simp only [h2c] at h
      cases h3c : w.toolsListOf r2.result with
      | error e => simp [h3c] at h
      | ok tl =>
        simp only [h3c] at h
        have := (Prod.mk.inj h).2
        simp [← this]

theorem getAvailableTools_of_calls {w : World} {o : Orchestrator} {hist h1 h2 : List Event}
    {r1 r2 : MCPResponse} {T : List MCPTool}
    (hInit : callMCPServer w o hist "initialize" initParams = (.ok r1, h1))
    (hList : callMCPServer w o h1 "tools/list" Params.none = (.ok r2, h2))
    (hDec : w.toolsListOf r2.result = .ok { tools := T }) :
    getAvailableTools w o hist =
      (.ok (T.map fun tool =>
        { name := tool.name, description := tool.description,
          parameters := tool.inputSchema }), h2) := by
  unfold getAvailableTools
  simp only [hInit, hList, hDec]
  rw [foldl_append_eq_map (fun tool : MCPTool =>
    ({ name := tool.name, description := tool.description,
       parameters := tool.inputSchema } : FunctionDeclaration))]
  simp

theorem toolsCalls_catalog_model (request : GeminiRequest) :
    toolsCalls ([] ++ [Event.serverCall (envelope "initialize" initParams),
      Event.serverCall (envelope "tools/list" Params.none)] ++ [Event.modelCall request]) = [] := by
  simp [toolsCalls, envelope]

theorem modelCalls_catalog_model (request : GeminiRequest) :
    modelCalls ([] ++ [Event.serverCall (envelope "initialize" initParams),
      Event.serverCall (envelope "tools/list" Params.none)] ++ [Event.modelCall request])
      = [request] := by
  simp [modelCalls]

/-! ## The catalog -/

/-- C5: when `initialize` and `tools/list` succeed and the listed result
decodes to the tool list `T`, `getAvailableTools` returns declarations of the
same length as `T`, and the declaration at every index carries the name,
description and input schema of the tool at that index. -/
theorem declarations_mirror_tools (w : World) (o : Orchestrator) (hist h1 h2 : List Event)
    (r1 r2 : MCPResponse) (T : List MCPTool)
    (hInit : callMCPServer w o hist "initialize" initParams = (.ok r1, h1))
    (hList : callMCPServer w o h1 "tools/list" Params.none = (.ok r2, h2))
    (hDec : w.toolsListOf r2.result = .ok { tools := T }) :
    ∃ functions : List FunctionDeclaration,
      getAvailableTools w o hist = (.ok functions, h2) ∧
      functions.length = T.length ∧
      ∀ (i : Nat) (hi : i < T.length) (hf : i < functions.length),
        functions[i].name = T[i].name ∧
        functions[i].description = T[i].description ∧
        functions[i].parameters = T[i].inputSchema := by
  refine ⟨_, getAvailableTools_of_calls hInit hList hDec, by simp, ?_⟩
  intro i hi hf
  simp

/-! ## Direct answers -/

/-- C2: when the catalog was fetched, the first model call succeeded and the
first part of its first candidate carries no function call and the text `t`,
`ProcessMessage` returns `t` without error, its history holds no `tools/call`
and exactly one model request. -/
theorem text_reply_returned (w : World) (o : Orchestrator) (userMessage t : String)
    (tools : List FunctionDeclaration) (h1 h2 : List Event) (resp : GeminiResponse)
    (c : Candidate) (cs : List Candidate) (p : Part) (ps : List Part)
    (hTools : getAvailableTools w o [] = (.ok tools, h1))
    (hModel : callGemini w o h1 (initialRequest userMessage tools) = (.ok resp, h2))
    (hCand : resp.candidates = c :: cs)
    (hParts : c.content.parts = p :: ps)
    (hNoCall : p.functionCall = none)
    (hText : p.text = t) :
    ProcessMessage w o userMessage = (.ok t, h2) ∧
    toolsCalls (ProcessMessage w o userMessage).2 = [] ∧
    modelCalls (ProcessMessage w o userMessage).2 = [initialRequest userMessage tools] := by
  have hRun : ProcessMessage w o userMessage = (.ok t, h2) := by
    unfold ProcessMessage
    simp only [hTools, hModel, hCand, hParts, hNoCall, directResponse, hText]
  have hh1 := getAvailableTools_trace hTools
  have hh2 := callGemini_trace hModel
  subst hh1
  subst hh2
  rw [hRun]
  exact ⟨rfl, toolsCalls_catalog_model _, modelCalls_catalog_model _⟩

/-- C7: when the catalog was fetched and the first model call succeeded with
zero candidates, `ProcessMessage` returns an error and its history holds no
`tools/call`. -/
theorem zero_candidates_error (w : World) (o : Orchestrator) (userMessage : String)
    (tools : List FunctionDeclaration) (h1 h2 : List Event) (resp : GeminiResponse)
    (hTools : getAvailableTools w o [] = (.ok tools, h1))
    (hModel : callGemini w o h1 (initialRequest userMessage tools) = (.ok resp, h2))
    (hZero : resp.candidates = []) :
    ProcessMessage w o userMessage = (.error "no response from Gemini", h2) ∧
    toolsCalls (ProcessMessage w o userMessage).2 = [] ∧
    modelCalls (ProcessMessage w o userMessage).2 = [initialRequest userMessage tools] := by
  have hRun : ProcessMessage w o userMessage = (.error "no response from Gemini", h2) := by
    unfold ProcessMessage
    simp only [hTools, hModel, hZero]
  have hh1 := getAvailableTools_trace hTools
  have hh2 := callGemini_trace hModel
  subst hh1
  subst hh2
  rw [hRun]
  exact ⟨rfl, toolsCalls_catalog_model _, modelCalls_catalog_model _⟩

/-- C10, as amended: when the catalog was fetched and the first model call
succeeded with at least one candidate, then if the first candidate has no
parts `ProcessMessage` returns the sentinel `No response generated`, and if
its first part carries neither a function call nor a text `ProcessMessage`
returns the empty text of that part; in both cases without error and without
any `tools/call`. -/
theorem partless_or_blank_reply (w : World) (o : Orchestrator) (userMessage : String)
    (tools : List FunctionDeclaration) (h1 h2 : List Event) (resp : GeminiResponse)
    (c : Candidate) (cs : List Candidate)
    (hTools : getAvailableTools w o [] = (.ok tools, h1))
    (hModel : callGemini w o h1 (initialRequest userMessage tools) = (.ok resp, h2))
    (hCand : resp.candidates = c :: cs)
    (hShape : c.content.parts = [] ∨
      ∃ p ps, c.content.parts = p :: ps ∧ p.functionCall = none ∧ p.text = "") :
    ProcessMessage w o userMessage =
      (.ok (if c.content.parts.isEmpty then "No response generated" else ""), h2) ∧
    toolsCalls (ProcessMessage w o userMessage).2 = [] := by
  have hRun : ProcessMessage w o userMessage =
      (.ok (if c.content.parts.isEmpty then "No response generated" else ""), h2) := by
    unfold ProcessMessage
    rcases hShape with hNil | ⟨p, ps, hParts, hNoCall, hText⟩
    · simp only [hTools, hModel, hCand, hNil, directResponse]
      rfl
    · simp only [hTools, hModel, hCand, hParts, hNoCall, directResponse, hText]
      rfl
  have hh1 := getAvailableTools_trace hTools
  have hh2 := callGemini_trace hModel
  subst hh1
  subst hh2
  rw [hRun]
  exact ⟨rfl, toolsCalls_catalog_model _⟩

/-! ## Tool execution -/

theorem executeTool_of_decoded {w : World} {o : Orchestrator} {hist h1 : List Event}
    {fc : FunctionCall} {r : MCPResponse} {tr : MCPCallToolResult}
    (hChan : callMCPServer w o hist "tools/call"
      (.callTool { name := fc.name, arguments := fc.args }) = (.ok r, h1))
    (hDec : w.callToolResultOf r.result = .ok tr) :
    executeTool w o hist fc = (.ok (extractedText tr), h1) := by
  unfold executeTool
  simp only [hChan, hDec]

/-- C3, as amended: when the `tools/call` response arrived and its result
decodes to a content list with first block `first`, `executeTool` returns the
text of `first` if `first` has type `text` (it is then the first text-typed
block of the list) and the fallback `Tool executed successfully` otherwise,
whatever blocks stand after `first`. -/
theorem first_block_decides (w : World) (o : Orchestrator) (hist h1 : List Event)
    (fc : FunctionCall) (r : MCPResponse) (first : MCPContent) (rest : List MCPContent)
    (hChan : callMCPServer w o hist "tools/call"
      (.callTool { name := fc.name, arguments := fc.args }) = (.ok r, h1))
    (hDec : w.callToolResultOf r.result = .ok { content := first :: rest }) :
    executeTool w o hist fc =
      (.ok (if first.type = "text" then first.text else "Tool executed successfully"), h1) ∧
    (first.type = "text" → firstTextBlock (first :: rest) = some first.text) := by
  refine ⟨?_, ?_⟩
  · rw [executeTool_of_decoded hChan hDec]
    rfl
  · intro hType
    simp [firstTextBlock, List.find?, hType]

/-- C4: when the `tools/call` response arrived and its result decodes to a
content list that is empty or holds no block of type `text`, `executeTool`
returns exactly `Tool executed successfully` and no error. -/
theorem fallback_without_text (w : World) (o : Orchestrator) (hist h1 : List Event)
    (fc : FunctionCall) (r : MCPResponse) (tr : MCPCallToolResult)
    (hChan : callMCPServer w o hist "tools/call"
      (.callTool { name := fc.name, arguments := fc.args }) = (.ok r, h1))
    (hDec : w.callToolResultOf r.result = .ok tr)
    (hNoText : tr.content = [] ∨ ∀ block ∈ tr.content, block.type ≠ "text") :
    executeTool w o hist fc = (.ok "Tool executed successfully", h1) := by
  rw [executeTool_of_decoded hChan hDec]
  unfold extractedText
  rcases hNoText with hNil | hAll
  · simp only [hNil]
  · cases hc : tr.content with
    | nil => rfl
    | cons first rest =>
      have hne : first.type ≠ "text" := hAll first (by simp [hc])
      simp only [hne, if_false]

/-! ## The tool round -/

theorem tool_round {w : World} {o : Orchestrator} {userMessage : String}
    {tools : List FunctionDeclaration} {h1 h2 h3 : List Event} {resp : GeminiResponse}
    {c : Candidate} {cs : List Candidate} {p : Part} {ps : List Part} {fc : FunctionCall}
    {r : MCPResponse} {tr : MCPCallToolResult}
    (hTools : getAvailableTools w o [] = (.ok tools, h1))
    (hModel : callGemini w o h1 (initialRequest userMessage tools) = (.ok resp, h2))
    (hCand : resp.candidates = c :: cs)
    (hParts : c.content.parts = p :: ps)
    (hCall : p.functionCall = some fc)
    (hChan : callMCPServer w o h2 "tools/call"
      (.callTool { name := fc.name, arguments := fc.args }) = (.ok r, h3))
    (hDec : w.callToolResultOf r.result = .ok tr) :
    ProcessMessage w o userMessage =
      (match (callGemini w o h3 (followUpRequest userMessage tools fc (extractedText tr))).1 with
        | .error err => .error ("Gemini follow-up error: " ++ err)
        | .ok finalResp =>
          match finalResp.candidates with
          | [] => .ok p.text
          | final :: _ =>
            match final.content.parts with
            | [] => .ok p.text
            | finalPart :: _ => .ok finalPart.text,
       [Event.serverCall (envelope "initialize" initParams),
        Event.serverCall (envelope "tools/list" Params.none),
        Event.modelCall (initialRequest userMessage tools),
        Event.serverCall (envelope "tools/call"
          (.callTool { name := fc.name, arguments := fc.args })),
        Event.modelCall (followUpRequest userMessage tools fc (extractedText tr))]) := by
  have hh1 := getAvailableTools_trace hTools
  have hh2 := callGemini_trace hModel
  have hh3 := callMCPServer_trace hChan
  unfold ProcessMessage
  simp only [hTools, hModel, hCand, hParts, hCall, executeTool_of_decoded hChan hDec,
    directResponse]
  generalize hg : callGemini w o h3 (followUpRequest userMessage tools fc (extractedText tr)) = g
  obtain ⟨res, h4⟩ := g
  have hh4 := callGemini_trace hg
  subst hh1 hh2 hh3 hh4
  cases res with
  | error e => simp
  | ok finalResp =>
    simp only
    cases finalResp.candidates with
    | nil => simp
    | cons final _ =>
      simp only
      cases final.content.parts with
      | nil => simp
      | cons _ _ => simp

/-- C1, as amended: when the first part of the first candidate of the initial
response carries a function call, the `tools/call` channel call succeeds and
its result decodes as a tool-call result, the history of `ProcessMessage` is
the catalog fetch, the initial model request, one `tools/call` whose params
are the call's name and args, and one follow-up model request; the follow-up
contents are the user turn, the model turn with the same function call and
the function turn with the extracted text under `result`; no other
`tools/call` or model request is recorded, whatever the follow-up returns. -/
theorem tool_round_history (w : World) (o : Orchestrator) (userMessage : String)
    (tools : List FunctionDeclaration) (h1 h2 h3 : List Event) (resp : GeminiResponse)
    (c : Candidate) (cs : List Candidate) (p : Part) (ps : List Part) (fc : FunctionCall)
    (r : MCPResponse) (tr : MCPCallToolResult)
    (hTools : getAvailableTools w o [] = (.ok tools, h1))
    (hModel : callGemini w o h1 (initialRequest userMessage tools) = (.ok resp, h2))
    (hCand : resp.candidates = c :: cs)
    (hParts : c.content.parts = p :: ps)
    (hCall : p.functionCall = some fc)
    (hChan : callMCPServer w o h2 "tools/call"
      (.callTool { name := fc.name, arguments := fc.args }) = (.ok r, h3))
    (hDec : w.callToolResultOf r.result = .ok tr) :
    (ProcessMessage w o userMessage).2 =
      [Event.serverCall (envelope "initialize" initParams),
       Event.serverCall (envelope "tools/list" Params.none),
       Event.modelCall (initialRequest userMessage tools),
       Event.serverCall { jsonrpc := "2.0", id := 1, method := "tools/call",
                          params := .callTool { name := fc.name, arguments := fc.args } },
       Event.modelCall (followUpRequest userMessage tools fc (extractedText tr))] ∧
    toolsCalls (ProcessMessage w o userMessage).2 =
      [{ jsonrpc := "2.0", id := 1, method := "tools/call",
         params := .callTool { name := fc.name, arguments := fc.args } }] ∧
    modelCalls (ProcessMessage w o userMessage).2 =
      [initialRequest userMessage tools,
       followUpRequest userMessage tools fc (extractedText tr)] ∧
    (followUpRequest userMessage tools fc (extractedText tr)).contents =
      [{ role := "user", parts := [{ text := userMessage }] },
       { role := "model", parts := [{ functionCall := some fc }] },
       { role := "function",
         parts := [{ functionResponse :=
                      some { name := fc.name,
                             response := some [("result", .str (extractedText tr))] } }] }] := by
  rw [tool_round hTools hModel hCand hParts hCall hChan hDec]
  refine ⟨rfl, ?_, ?_, rfl⟩
  · simp [toolsCalls, envelope]
  · simp [modelCalls]

/-- C9, as amended: when the `tools/call` response parses as an envelope
whose error member is set, `executeTool` returns no error on that account:
if the result member decodes as a tool-call result, `executeTool` returns the
text extracted from it (the fallback `Tool executed successfully` when the
content list is empty) and `ProcessMessage` sends that text to the model in
the follow-up request. -/
theorem error_member_ignored (w : World) (o : Orchestrator) (userMessage : String)
    (tools : List FunctionDeclaration) (h1 h2 h3 : List Event) (resp : GeminiResponse)
    (c : Candidate) (cs : List Candidate) (p : Part) (ps : List Part) (fc : FunctionCall)
    (r : MCPResponse) (tr : MCPCallToolResult)
    (hTools : getAvailableTools w o [] = (.ok tools, h1))
    (hModel : callGemini w o h1 (initialRequest userMessage tools) = (.ok resp, h2))
    (hCand : resp.candidates = c :: cs)
    (hParts : c.content.parts = p :: ps)
    (hCall : p.functionCall = some fc)
    (hChan : callMCPServer w o h2 "tools/call"
      (.callTool { name := fc.name, arguments := fc.args }) = (.ok r, h3))
    (_hErr : r.error ≠ JSON.null)
    (hDec : w.callToolResultOf r.result = .ok tr) :
    executeTool w o h2 fc = (.ok (extractedText tr), h3) ∧
    (tr.content = [] → extractedText tr = "Tool executed successfully") ∧
    modelCalls (ProcessMessage w o userMessage).2 =
      [initialRequest userMessage tools,
       followUpRequest userMessage tools fc (extractedText tr)] := by
  refine ⟨executeTool_of_decoded hChan hDec, ?_, ?_⟩
  · intro hNil
    simp [extractedText, hNil]
  · rw [tool_round hTools hModel hCand hParts hCall hChan hDec]
    simp [modelCalls]

/-- In the tool round, when the follow-up model call succeeds and its first
candidate has a first part, `ProcessMessage` returns the text of that part. -/
theorem follow_up_text_returned (w : World) (o : Orchestrator) (userMessage : String)
    (tools : List FunctionDeclaration) (h1 h2 h3 h4 : List Event) (resp finalResp : GeminiResponse)
    (c final : Candidate) (cs finals : List Candidate) (p finalPart : Part)
    (ps finalParts : List Part) (fc : FunctionCall) (toolResult : String)
    (hTools : getAvailableTools w o [] = (.ok tools, h1))
    (hModel : callGemini w o h1 (initialRequest userMessage tools) = (.ok resp, h2))
    (hCand : resp.candidates = c :: cs)
    (hParts : c.content.parts = p :: ps)
    (hCall : p.functionCall = some fc)
    (hExec : executeTool w o h2 fc = (.ok toolResult, h3))
    (hFollow : callGemini w o h3 (followUpRequest userMessage tools fc toolResult)
      = (.ok finalResp, h4))
    (hFinal : finalResp.candidates = final :: finals)
    (hFinalParts : final.content.parts = finalPart :: finalParts) :
    ProcessMessage w o userMessage = (.ok finalPart.text, h4) := by
  unfold ProcessMessage
  simp only [hTools, hModel, hCand, hParts, hCall, hExec, hFollow, hFinal, hFinalParts]

/-- In the tool round, when the follow-up model call succeeds and its first
candidate has no parts, `ProcessMessage` returns the text of the first part of
the initial response, the part that carried the function call. -/
theorem follow_up_without_parts (w : World) (o : Orchestrator) (userMessage : String)
    (tools : List FunctionDeclaration) (h1 h2 h3 h4 : List Event) (resp finalResp : GeminiResponse)
    (c final : Candidate) (cs finals : List Candidate) (p : Part)
    (ps : List Part) (fc : FunctionCall) (toolResult : String)
    (hTools : getAvailableTools w o [] = (.ok tools, h1))
    (hModel : callGemini w o h1 (initialRequest userMessage tools) = (.ok resp, h2))
    (hCand : resp.candidates = c :: cs)
    (hParts : c.content.parts = p :: ps)
    (hCall : p.functionCall = some fc)
    (hExec : executeTool w o h2 fc = (.ok toolResult, h3))
    (hFollow : callGemini w o h3 (followUpRequest userMessage tools fc toolResult)
      = (.ok finalResp, h4))
    (hFinal : finalResp.candidates = final :: finals)
    (hFinalParts : final.content.parts = []) :
    ProcessMessage w o userMessage = (.ok p.text, h4) := by
  unfold ProcessMessage
  simp only [hTools, hModel, hCand, hParts, hCall, hExec, hFollow, hFinal, hFinalParts,
    directResponse]

/-! ## Failures of the remote channel -/

theorem callMCPServer_empty_output {w : World} {o : Orchestrator} {hist : List Event}
    {method : String} {params : Params}
    (hEmpty : w.output o.mcpServerPath hist (envelope method params) = .ok "") :
    ∃ e, (callMCPServer w o hist method params).1 = .error e := by
  unfold callMCPServer
  cases hm : w.marshalMCPRequest (envelope method params) with
  | some err => exact ⟨err, by simp [hm]⟩
  | none => exact ⟨"MCP server returned empty response", by simp [hm, hEmpty]⟩

theorem allOk_nil (w : World) (o : Orchestrator) : AllOk w o [] := by
  intro hist method params hPre
  simp at hPre

theorem allOk_model {w : World} {o : Orchestrator} {trace : List Event}
    (h : AllOk w o trace) (request : GeminiRequest) :
    AllOk w o (trace ++ [Event.modelCall request]) := by
  intro hist method params hPre
  rcases List.prefix_concat_iff.mp hPre with hEq | hPre'
  · have := (List.append_inj' hEq rfl).2
    simp at this
  · exact h hist method params hPre'

theorem allOk_server {w : World} {o : Orchestrator} {trace : List Event}
    (h : AllOk w o trace) {method : String} {params : Params} {r : MCPResponse}
    (hr : (callMCPServer w o trace method params).1 = .ok r) :
    AllOk w o (trace ++ [Event.serverCall (envelope method params)]) := by
  intro hist method' params' hPre
  rcases List.prefix_concat_iff.mp hPre with hEq | hPre'
  · obtain ⟨hHist, hLast⟩ := List.append_inj' hEq rfl
    simp only [List.cons.injEq, Event.serverCall.injEq, envelope, MCPRequest.mk.injEq,
      and_true, true_and] at hLast
    obtain ⟨hm, hp⟩ := hLast
    subst hHist hm hp
    exact ⟨r, hr⟩
  · exact h hist method' params' hPre'

theorem failsLast_of_allOk {w : World} {o : Orchestrator} {trace : List Event}
    (h : AllOk w o trace) : FailsLast w o trace := by
  intro hist method params hPre hErr
  obtain ⟨r, hr⟩ := h hist method params hPre
  obtain ⟨e, he⟩ := hErr
  rw [hr] at he
  cases he

theorem failsLast_server {w : World} {o : Orchestrator} {trace : List Event}
    (h : AllOk w o trace) (request : MCPRequest) :
    FailsLast w o (trace ++ [Event.serverCall request]) := by
  intro hist method params hPre hErr
  rcases List.prefix_concat_iff.mp hPre with hEq | hPre'
  · exact hEq.symm
  · exact absurd hErr (by
      obtain ⟨r, hr⟩ := h hist method params hPre'
      rintro ⟨e, he⟩
      rw [hr] at he
      cases he)

theorem traced_of_allOk {w : World} {o : Orchestrator} {trace : List Event}
    (h : AllOk w o trace) (ok : Bool) : Traced w o ok trace :=
  ⟨failsLast_of_allOk h, fun _ => h⟩

theorem traced_callMCPServer {w : World} {o : Orchestrator} {hist : List Event}
    (h : AllOk w o hist) (method : String) (params : Params) :
    Traced w o (callMCPServer w o hist method params).1.isOk
      (hist ++ [Event.serverCall (envelope method params)]) := by
  refine ⟨failsLast_server h _, ?_⟩
  intro hOk
  cases hr : (callMCPServer w o hist method params).1 with
  | error e => simp [hr, Except.isOk, Except.toBool] at hOk
  | ok r => exact allOk_server h hr

theorem traced_getAvailableTools {w : World} {o : Orchestrator} {hist : List Event}
    (h : AllOk w o hist) :
    Traced w o (getAvailableTools w o hist).1.isOk (getAvailableTools w o hist).2 := by
  have t1 := traced_callMCPServer h "initialize" initParams
  unfold getAvailableTools
  rw [callMCPServer_eq]
  cases h1c : (callMCPServer w o hist "initialize" initParams).1 with
  | error e =>
    simp only
    exact ⟨t1.1, fun hOk => by simp [Except.isOk, Except.toBool] at hOk⟩
  | ok r1 =>
    simp only
    have a1 : AllOk w o (hist ++ [Event.serverCall (envelope "initialize" initParams)]) :=
      allOk_server h h1c
    have t2 := traced_callMCPServer a1 "tools/list" Params.none
    rw [callMCPServer_eq]
    cases h2c : (callMCPServer w o (hist ++ [Event.serverCall (envelope "initialize" initParams)])
        "tools/list" Params.none).1 with
    | error e =>
      simp only
      exact ⟨t2.1, fun hOk => by simp [Except.isOk, Except.toBool] at hOk⟩
    | ok r2 =>
      simp only
      have a2 := allOk_server a1 h2c
      cases w.toolsListOf r2.result with
      | error e => exact traced_of_allOk a2 _
      | ok tl => exact traced_of_allOk a2 _

theorem traced_executeTool {w : World} {o : Orchestrator} {hist : List Event}
    (h : AllOk w o hist) (fc : FunctionCall) :
    Traced w o (executeTool w o hist fc).1.isOk (executeTool w o hist fc).2 := by
  have t1 := traced_callMCPServer h "tools/call"
    (.callTool { name := fc.name, arguments := fc.args })
  unfold executeTool
  simp only
  rw [callMCPServer_eq]
  cases h1c : (callMCPServer w o hist "tools/call"
      (.callTool { name := fc.name, arguments := fc.args })).1 with
  | error e =>
    simp only
    exact ⟨t1.1, fun hOk => by simp [Except.isOk, Except.toBool] at hOk⟩
  | ok r =>
    simp only
    have a1 := allOk_server h h1c
    cases w.callToolResultOf r.result with
    | error e => exact traced_of_allOk a1 _
    | ok tr => exact traced_of_allOk a1 _

theorem traced_ProcessMessage (w : World) (o : Orchestrator) (userMessage : String) :
    Traced w o (ProcessMessage w o userMessage).1.isOk (ProcessMessage w o userMessage).2 := by
  have tT := traced_getAvailableTools (allOk_nil w o)
  unfold ProcessMessage
  rcases hT : getAvailableTools w o [] with ⟨rT, h1⟩
  rw [hT] at tT
  cases rT with
  | error e =>
    simp only
    exact ⟨tT.1, fun hOk => by simp [Except.isOk, Except.toBool] at hOk⟩
  | ok tools =>
    simp only
    have a1 : AllOk w o h1 := tT.2 rfl
    rcases hM : callGemini w o h1 (initialRequest userMessage tools) with ⟨rM, h2⟩
    have hh2 := callGemini_trace hM
    have a2 : AllOk w o h2 := hh2 ▸ allOk_model a1 _
    cases rM with
    | error e => exact traced_of_allOk a2 _
    | ok resp =>
      simp only
      cases resp.candidates with
      | nil => exact traced_of_allOk a2 _
      | cons c cs =>
        simp only
        cases c.content.parts with
        | nil => exact traced_of_allOk a2 _
        | cons p ps =>
          simp only
          cases p.functionCall with
          | none => exact traced_of_allOk a2 _
          | some fc =>
            simp only
            have tE := traced_executeTool a2 fc
            rcases hE : executeTool w o h2 fc with ⟨rE, h3⟩
            rw [hE] at tE
            cases rE with
            | error e =>
              simp only
              exact ⟨tE.1, fun hOk => by simp [Except.isOk, Except.toBool] at hOk⟩
            | ok toolResult =>
              simp only
              have a3 : AllOk w o h3 := tE.2 rfl
              rcases hF : callGemini w o h3
                (followUpRequest userMessage tools fc toolResult) with ⟨rF, h4⟩
              have hh4 := callGemini_trace hF
              have a4 : AllOk w o h4 := hh4 ▸ allOk_model a3 _
              cases rF with
              | error e => exact traced_of_allOk a4 _
              | ok finalResp =>
                simp only
                cases finalResp.candidates with
                | nil => exact traced_of_allOk a4 _
                | cons final finals =>
                  simp only
                  cases final.content.parts with
                  | nil => exact traced_of_allOk a4 _
                  | cons _ _ => exact traced_of_allOk a4 _

/-- C8: for every child-process call that `ProcessMessage` makes (the history
up to and including the call is a prefix of the history of the run), if the
process output for that call is empty then `callMCPServer` returns an error,
`ProcessMessage` returns an error, and the call is the last entry of the
history: no remote-channel call and no model call follows it. -/
theorem empty_output_is_fatal (w : World) (o : Orchestrator) (userMessage : String)
    (hist : List Event) (method : String) (params : Params)
    (hIssued : hist ++ [Event.serverCall (envelope method params)] <+:
      (ProcessMessage w o userMessage).2)
    (hEmpty : w.output o.mcpServerPath hist (envelope method params) = .ok "") :
    (∃ e, (callMCPServer w o hist method params).1 = .error e) ∧
    (∃ e, (ProcessMessage w o userMessage).1 = .error e) ∧
    (ProcessMessage w o userMessage).2 =
      hist ++ [Event.serverCall (envelope method params)] := by
  have hErr := callMCPServer_empty_output hEmpty
  have hTr := traced_ProcessMessage w o userMessage
  refine ⟨hErr, ?_, hTr.1 hist method params hIssued hErr⟩
  cases hres : (ProcessMessage w o userMessage).1 with
  | error e => exact ⟨e, rfl⟩
  | ok a =>
    have hAll := hTr.2 (by simp [hres, Except.isOk, Except.toBool])
    obtain ⟨r, hr⟩ := hAll hist method params hIssued
    obtain ⟨e, he⟩ := hErr
    rw [hr] at he
    cases he

/-! ## The theorems at the scripted scenarios -/

/-- Witness of C5 in the tool scenario: the one listed tool yields the one
declaration with the same three fields. -/
theorem declarations_mirror_tools_witness :
    ∃ functions : List FunctionDeclaration,
      getAvailableTools toolWorld chatOrchestrator [] = (.ok functions, catalogHistory) ∧
      functions.length = [helloTool].length ∧
      ∀ (i : Nat) (hi : i < [helloTool].length) (hf : i < functions.length),
        functions[i].name = [helloTool][i].name ∧
        functions[i].description = [helloTool][i].description ∧
        functions[i].parameters = [helloTool][i].inputSchema :=
  declarations_mirror_tools toolWorld chatOrchestrator []
    [Event.serverCall (envelope "initialize" initParams)] catalogHistory
    { jsonrpc := "2.0", id := 1, result := .obj [], error := .null }
    { jsonrpc := "2.0", id := 1, error := .null,
      result := .obj [("tools", .arr [.obj [("name", .str "hello_world"),
        ("description", .str "Say hello to someone"),
        ("inputSchema", .obj [("type", .str "object")])]])] }
    [helloTool] rfl rfl rfl

/-- Witness of C2 in the text scenario. -/
theorem text_reply_returned_witness :
    ProcessMessage textWorld chatOrchestrator "Hello Ann" = (.ok "hi", firstHistory) ∧
    toolsCalls (ProcessMessage textWorld chatOrchestrator "Hello Ann").2 = [] ∧
    modelCalls (ProcessMessage textWorld chatOrchestrator "Hello Ann").2 =
      [initialRequest "Hello Ann" [helloDeclaration]] :=
  text_reply_returned textWorld chatOrchestrator "Hello Ann" "hi" [helloDeclaration]
    catalogHistory firstHistory
    { candidates := [{ content := { role := "model", parts := [{ text := "hi" }] },
                       finishReason := "STOP" }] }
    { content := { role := "model", parts := [{ text := "hi" }] }, finishReason := "STOP" }
    [] { text := "hi" } [] rfl rfl rfl rfl rfl rfl

/-- Witness of C7 in the scenario without candidates. -/
theorem zero_candidates_error_witness :
    ProcessMessage noCandidatesWorld chatOrchestrator "Hello Ann" =
      (.error "no response from Gemini", firstHistory) ∧
    toolsCalls (ProcessMessage noCandidatesWorld chatOrchestrator "Hello Ann").2 = [] ∧
    modelCalls (ProcessMessage noCandidatesWorld chatOrchestrator "Hello Ann").2 =
      [initialRequest "Hello Ann" [helloDeclaration]] :=
  zero_candidates_error noCandidatesWorld chatOrchestrator "Hello Ann" [helloDeclaration]
    catalogHistory firstHistory { candidates := [] } rfl rfl rfl

/-- Counterexample to C1 as stated: the first part carries a function call
and the `tools/call` channel call succeeds, yet the result (a JSON string)
does not decode, `ProcessMessage` fails and no follow-up model request is
made. -/
theorem undecodable_result_stops_round :
    getAvailableTools stringResultWorld chatOrchestrator [] =
      (.ok [helloDeclaration], catalogHistory) ∧
    callGemini stringResultWorld chatOrchestrator catalogHistory
        (initialRequest "Hello Ann" [helloDeclaration]) =
      (.ok { candidates := [callCandidate] }, firstHistory) ∧
    callCandidate.content.parts = [{ functionCall := some helloCall }] ∧
    callMCPServer stringResultWorld chatOrchestrator firstHistory "tools/call"
        (.callTool { name := helloCall.name, arguments := helloCall.args }) =
      (.ok { jsonrpc := "2.0", id := 1, result := .str "done", error := .null },
        callHistory) ∧
    ProcessMessage stringResultWorld chatOrchestrator "Hello Ann" =
      (.error ("tool execution error: " ++
        "json: cannot unmarshal string into Go value of type main.MCPCallToolResult"),
        callHistory) ∧
    modelCalls (ProcessMessage stringResultWorld chatOrchestrator "Hello Ann").2 =
      [initialRequest "Hello Ann" [helloDeclaration]] :=
  ⟨rfl, rfl, rfl, rfl, rfl, rfl⟩

/-- Witness of C1 as amended, in the tool scenario. -/
theorem tool_round_history_witness :
    (ProcessMessage toolWorld chatOrchestrator "Hello Ann").2 =
      [Event.serverCall (envelope "initialize" initParams),
       Event.serverCall (envelope "tools/list" Params.none),
       Event.modelCall (initialRequest "Hello Ann" [helloDeclaration]),
       Event.serverCall { jsonrpc := "2.0", id := 1, method := "tools/call",
                          params := .callTool { name := "hello_world",
                                                arguments := some [("name", .str "Ann")] } },
       Event.modelCall
         (followUpRequest "Hello Ann" [helloDeclaration] helloCall "Hello, Ann!")] ∧
    toolsCalls (ProcessMessage toolWorld chatOrchestrator "Hello Ann").2 =
      [{ jsonrpc := "2.0", id := 1, method := "tools/call",
         params := .callTool { name := "hello_world",
                               arguments := some [("name", .str "Ann")] } }] ∧
    modelCalls (ProcessMessage toolWorld chatOrchestrator "Hello Ann").2 =
      [initialRequest "Hello Ann" [helloDeclaration],
       followUpRequest "Hello Ann" [helloDeclaration] helloCall "Hello, Ann!"] ∧
    (followUpRequest "Hello Ann" [helloDeclaration] helloCall "Hello, Ann!").contents =
      [{ role := "user", parts := [{ text := "Hello Ann" }] },
       { role := "model", parts := [{ functionCall := some helloCall }] },
       { role := "function",
         parts := [{ functionResponse :=
                      some { name := "hello_world",
                             response := some [("result", .str "Hello, Ann!")] } }] }] :=
  tool_round_history toolWorld chatOrchestrator "Hello Ann" [helloDeclaration]
    catalogHistory firstHistory callHistory { candidates := [callCandidate] } callCandidate []
    { functionCall := some helloCall } [] helloCall
    { jsonrpc := "2.0", id := 1, error := .null,
      result := .obj [("content", .arr [.obj [("type", .str "text"),
        ("text", .str "Hello, Ann!")]])] }
    { content := [{ type := "text", text := "Hello, Ann!" }] }
    rfl rfl rfl rfl rfl rfl rfl

/-- Counterexample to C3 as stated: the content list holds a text block after
an image block, and `executeTool` returns the fallback, not that text. -/
theorem later_text_block_not_returned :
    imageThenTextWorld.callToolResultOf
        (.obj [("content", .arr [.obj [("type", .str "image")],
          .obj [("type", .str "text"), ("text", .str "Hello, Ann!")]])]) =
      .ok { content := [{ type := "image", text := "" },
                        { type := "text", text := "Hello, Ann!" }] } ∧
    firstTextBlock [{ type := "image", text := "" }, { type := "text", text := "Hello, Ann!" }] =
      some "Hello, Ann!" ∧
    callMCPServer imageThenTextWorld chatOrchestrator firstHistory "tools/call"
        (.callTool { name := helloCall.name, arguments := helloCall.args }) =
      (.ok { jsonrpc := "2.0", id := 1, error := .null,
             result := .obj [("content", .arr [.obj [("type", .str "image")],
               .obj [("type", .str "text"), ("text", .str "Hello, Ann!")]])] },
        callHistory) ∧
    executeTool imageThenTextWorld chatOrchestrator firstHistory helloCall =
      (.ok "Tool executed successfully", callHistory) ∧
    (executeTool imageThenTextWorld chatOrchestrator firstHistory helloCall).1 ≠
      .ok "Hello, Ann!" :=
  ⟨rfl, rfl, rfl, rfl, fun h => by
    have h2 : (Except.ok "Tool executed successfully" : Except String String) =
        .ok "Hello, Ann!" := h
    simp at h2⟩

/-- Witness of C3 as amended, in the tool scenario. -/
theorem first_block_decides_witness :
    executeTool toolWorld chatOrchestrator firstHistory helloCall =
      (.ok "Hello, Ann!", callHistory) ∧
    firstTextBlock [{ type := "text", text := "Hello, Ann!" }] = some "Hello, Ann!" :=
  have h := first_block_decides toolWorld chatOrchestrator firstHistory callHistory helloCall
    { jsonrpc := "2.0", id := 1, error := .null,
      result := .obj [("content", .arr [.obj [("type", .str "text"),
        ("text", .str "Hello, Ann!")]])] }
    { type := "text", text := "Hello, Ann!" } [] rfl rfl
  ⟨h.1, h.2 rfl⟩

/-- Witness of C4 in the scenario without content. -/
theorem fallback_without_text_witness :
    executeTool noContentWorld chatOrchestrator firstHistory helloCall =
      (.ok "Tool executed successfully", callHistory) :=
  fallback_without_text noContentWorld chatOrchestrator firstHistory callHistory helloCall
    { jsonrpc := "2.0", id := 1, result := .obj [], error := .null }
    { content := [] } rfl rfl (Or.inl rfl)

/-- C6 at its failing input: in the tool round, the follow-up model call
succeeds with a candidate that has no parts, and `ProcessMessage` returns the
empty text of the initial function-call part, not the sentinel
`No response generated`. -/
theorem follow_up_without_parts_returns_call_text :
    executeTool followUpNoPartsWorld chatOrchestrator firstHistory helloCall =
      (.ok "Hello, Ann!", callHistory) ∧
    callGemini followUpNoPartsWorld chatOrchestrator callHistory
        (followUpRequest "Hello Ann" [helloDeclaration] helloCall "Hello, Ann!") =
      (.ok { candidates := [{ content := { role := "model", parts := [] },
                              finishReason := "STOP" }] },
        callHistory ++ [Event.modelCall
          (followUpRequest "Hello Ann" [helloDeclaration] helloCall "Hello, Ann!")]) ∧
    ProcessMessage followUpNoPartsWorld chatOrchestrator "Hello Ann" =
      (.ok "", callHistory ++ [Event.modelCall
        (followUpRequest "Hello Ann" [helloDeclaration] helloCall "Hello, Ann!")]) ∧
    (ProcessMessage followUpNoPartsWorld chatOrchestrator "Hello Ann").1 ≠
      .ok "No response generated" :=
  ⟨rfl, rfl, rfl, fun h => by
    have h2 : (Except.ok "" : Except String String) = .ok "No response generated" := h
    simp at h2⟩

/-- Witness of C8 in the three scenarios where the process prints nothing for
`initialize`, for `tools/list` and for `tools/call`. -/
theorem empty_output_is_fatal_witness :
    ((∃ e, (callMCPServer silentInitWorld chatOrchestrator [] "initialize"
        initParams).1 = .error e) ∧
      (∃ e, (ProcessMessage silentInitWorld chatOrchestrator "Hello Ann").1 = .error e) ∧
      (ProcessMessage silentInitWorld chatOrchestrator "Hello Ann").2 =
        [] ++ [Event.serverCall (envelope "initialize" initParams)]) ∧
    ((∃ e, (callMCPServer silentListWorld chatOrchestrator
        [Event.serverCall (envelope "initialize" initParams)] "tools/list"
        Params.none).1 = .error e) ∧
      (∃ e, (ProcessMessage silentListWorld chatOrchestrator "Hello Ann").1 = .error e) ∧
      (ProcessMessage silentListWorld chatOrchestrator "Hello Ann").2 =
        [Event.serverCall (envelope "initialize" initParams)] ++
          [Event.serverCall (envelope "tools/list" Params.none)]) ∧
    ((∃ e, (callMCPServer silentToolWorld chatOrchestrator firstHistory "tools/call"
        (.callTool { name := "hello_world",
                     arguments := some [("name", .str "Ann")] })).1 = .error e) ∧
      (∃ e, (ProcessMessage silentToolWorld chatOrchestrator "Hello Ann").1 = .error e) ∧
      (ProcessMessage silentToolWorld chatOrchestrator "Hello Ann").2 =
        firstHistory ++ [Event.serverCall (envelope "tools/call"
          (.callTool { name := "hello_world", arguments := some [("name", .str "Ann")] }))]) :=
  ⟨empty_output_is_fatal silentInitWorld chatOrchestrator "Hello Ann" [] "initialize"
      initParams ⟨[], rfl⟩ rfl,
   empty_output_is_fatal silentListWorld chatOrchestrator "Hello Ann"
      [Event.serverCall (envelope "initialize" initParams)] "tools/list" Params.none
      ⟨[], rfl⟩ rfl,
   empty_output_is_fatal silentToolWorld chatOrchestrator "Hello Ann" firstHistory "tools/call"
      (.callTool { name := "hello_world", arguments := some [("name", .str "Ann")] })
      ⟨[], rfl⟩ rfl⟩

/-- Counterexample to C9 as stated: the `tools/call` response parses as an
envelope with its error member set, yet `executeTool` returns the fallback
text without error and `ProcessMessage` answers with the follow-up text. -/
theorem error_envelope_not_reported :
    callMCPServer errorWorld chatOrchestrator firstHistory "tools/call"
        (.callTool { name := helloCall.name, arguments := helloCall.args }) =
      (.ok { jsonrpc := "2.0", id := 1, result := .null,
             error := .obj [("message", .str "unknown tool")] }, callHistory) ∧
    executeTool errorWorld chatOrchestrator firstHistory helloCall =
      (.ok "Tool executed successfully", callHistory) ∧
    ProcessMessage errorWorld chatOrchestrator "Hello Ann" =
      (.ok "Ann was greeted.", callHistory ++ [Event.modelCall
        (followUpRequest "Hello Ann" [helloDeclaration] helloCall
          "Tool executed successfully")]) :=
  ⟨rfl, rfl, rfl⟩

/-- Witness of C9 as amended, in the error scenario. -/
theorem error_member_ignored_witness :
    executeTool errorWorld chatOrchestrator firstHistory helloCall =
      (.ok "Tool executed successfully", callHistory) ∧
    modelCalls (ProcessMessage errorWorld chatOrchestrator "Hello Ann").2 =
      [initialRequest "Hello Ann" [helloDeclaration],
       followUpRequest "Hello Ann" [helloDeclaration] helloCall
         "Tool executed successfully"] :=
  have h := error_member_ignored errorWorld chatOrchestrator "Hello Ann" [helloDeclaration]
    catalogHistory firstHistory callHistory { candidates := [callCandidate] } callCandidate []
    { functionCall := some helloCall } [] helloCall
    { jsonrpc := "2.0", id := 1, result := .null,
      error := .obj [("message", .str "unknown tool")] }
    { content := [] }
    rfl rfl rfl rfl rfl rfl (fun h => by cases h) rfl
  ⟨h.1, h.2.2⟩

/-- Counterexample to C10 as stated: the first part of the first candidate
carries neither a function call nor a text, and `ProcessMessage` returns the
empty string, not the sentinel. -/
theorem blank_part_returns_empty_text :
    callGemini emptyPartWorld chatOrchestrator catalogHistory
        (initialRequest "Hello Ann" [helloDeclaration]) =
      (.ok { candidates := [{ content := { role := "model",
                                           parts := [{ text := "", functionCall := none }] },
                              finishReason := "STOP" }] }, firstHistory) ∧
    ProcessMessage emptyPartWorld chatOrchestrator "Hello Ann" = (.ok "", firstHistory) ∧
    (ProcessMessage emptyPartWorld chatOrchestrator "Hello Ann").1 ≠
      .ok "No response generated" :=
  ⟨rfl, rfl, fun h => by
    have h2 : (Except.ok "" : Except String String) = .ok "No response generated" := h
    simp at h2⟩

/-- Witness of C10 as amended, in the scenario where the candidate has no
parts. -/
theorem partless_or_blank_reply_witness :
    ProcessMessage noPartsWorld chatOrchestrator "Hello Ann" =
      (.ok "No response generated", firstHistory) ∧
    toolsCalls (ProcessMessage noPartsWorld chatOrchestrator "Hello Ann").2 = [] :=
  partless_or_blank_reply noPartsWorld chatOrchestrator "Hello Ann" [helloDeclaration]
    catalogHistory firstHistory
    { candidates := [{ content := { role := "model", parts := [] }, finishReason := "STOP" }] }
    { content := { role := "model", parts := [] }, finishReason := "STOP" } []
    rfl rfl rfl (Or.inl rfl)

end MCPChat
